import Mathlib

/-!
Shallow embedding of the chess-piece entity layer of
Farhana79/S2025-project-01 (`ChessPiece.cpp`, `Rook.hpp`/`Rook.cpp`,
`Pawn.hpp`/`Pawn.cpp`).

Strings are modelled as `List Char` (the C++ `std::string` contents);
machine `int` as unbounded `Int` (no arithmetic here approaches the
`int` range). Mutating C++ member functions become pure functions
returning the updated record; `setColor`, which both mutates and
returns a `bool`, returns a pair.
-/

/-- Modelled from the spec: the header `ChessPiece.hpp` (not present in
`src/`) declares the static constant `ChessPiece::BOARD_LENGTH`. The spec
and the promotion example in `Pawn.cpp` describe an 8-row chess board. -/
def BOARD_LENGTH : Int := 8

/-- C `std::isalpha` in the default locale, on ASCII input: the character
is a letter. -/
def isalpha (c : Char) : Bool :=
  (65 ≤ c.toNat && c.toNat ≤ 90) || (97 ≤ c.toNat && c.toNat ≤ 122)

/-- C `std::toupper` in the default locale, on ASCII input: lowercase
letters map to uppercase, everything else is unchanged. -/
def toupper (c : Char) : Char :=
  if 97 ≤ c.toNat && c.toNat ≤ 122 then Char.ofNat (c.toNat - 32) else c

/-- The loop `for (char c : color) if (!std::isalpha(c)) ...` of
`ChessPiece::ChessPiece` and `ChessPiece::setColor`: true iff every
character of the string is alphabetic. -/
def isAlphabetic (s : List Char) : Bool :=
  s.all isalpha

/-- The loop `for (char& c : color_) c = std::toupper(c);`: the string
uppercased character by character. -/
def toUpperStr (s : List Char) : List Char :=
  s.map toupper

/-- The fallback color `"BLACK"`. -/
def blackStr : List Char := ['B', 'L', 'A', 'C', 'K']

/-- The state of a `ChessPiece`: its four private members. -/
structure ChessPiece where
  color_ : List Char
  row_ : Int
  column_ : Int
  movingUp_ : Bool
deriving DecidableEq, Repr

/-- `ChessPiece::ChessPiece()`: default constructor. -/
def ChessPiece.mkDefault : ChessPiece :=
  { color_ := blackStr, row_ := -1, column_ := -1, movingUp_ := false }

/-- `ChessPiece::ChessPiece(color, row, column, movingUp)`: parameterized
constructor. The color is uppercased when purely alphabetic, otherwise
`"BLACK"`; the position is stored when both coordinates are in
`[0, BOARD_LENGTH)`, otherwise both become `-1`; `movingUp` is stored
unconditionally. -/
def ChessPiece.mkParam (color : List Char) (row column : Int)
    (movingUp : Bool) : ChessPiece :=
  let c := if isAlphabetic color then toUpperStr color else blackStr
  if 0 ≤ row ∧ row < BOARD_LENGTH ∧ 0 ≤ column ∧ column < BOARD_LENGTH then
    { color_ := c, row_ := row, column_ := column, movingUp_ := movingUp }
  else
    { color_ := c, row_ := -1, column_ := -1, movingUp_ := movingUp }

/-- `ChessPiece::getColor`. -/
def ChessPiece.getColor (p : ChessPiece) : List Char := p.color_

/-- `ChessPiece::setColor(color)`: returns the C++ `bool` result paired
with the piece state after the call. -/
def ChessPiece.setColor (p : ChessPiece) (color : List Char) :
    Bool × ChessPiece :=
  if isAlphabetic color then (true, { p with color_ := toUpperStr color })
  else (false, p)

/-- `ChessPiece::getRow`. -/
def ChessPiece.getRow (p : ChessPiece) : Int := p.row_

/-- `ChessPiece::setRow(row)`: stores the row when it is in
`[0, BOARD_LENGTH)`; otherwise sets both row and column to `-1`. -/
def ChessPiece.setRow (p : ChessPiece) (row : Int) : ChessPiece :=
  if 0 ≤ row ∧ row < BOARD_LENGTH then { p with row_ := row }
  else { p with row_ := -1, column_ := -1 }

/-- `ChessPiece::getColumn`. -/
def ChessPiece.getColumn (p : ChessPiece) : Int := p.column_

/-- `ChessPiece::setColumn(column)`: stores the column when it is in
`[0, BOARD_LENGTH)`; otherwise sets both row and column to `-1`. -/
def ChessPiece.setColumn (p : ChessPiece) (column : Int) : ChessPiece :=
  if 0 ≤ column ∧ column < BOARD_LENGTH then { p with column_ := column }
  else { p with row_ := -1, column_ := -1 }

/-- `ChessPiece::isMovingUp`. -/
def ChessPiece.isMovingUp (p : ChessPiece) : Bool := p.movingUp_

/-- `ChessPiece::setMovingUp(movingUp)`. -/
def ChessPiece.setMovingUp (p : ChessPiece) (movingUp : Bool) : ChessPiece :=
  { p with movingUp_ := movingUp }

/-- `ChessPiece::display()`: the single line written to standard output
(the trailing `std::endl` is the line terminator and is not part of the
returned text). The method is `const`-like in effect: it reads the four
members and changes nothing, which the pure function type captures. -/
def ChessPiece.display (p : ChessPiece) : String :=
  if p.row_ ≠ -1 ∧ p.column_ ≠ -1 then
    String.mk p.color_ ++ " piece at (" ++ toString p.row_ ++ ","
      ++ toString p.column_ ++ ") is moving "
      ++ (if p.movingUp_ then "UP" else "DOWN")
  else
    String.mk p.color_ ++ " piece is not on the board"

/-- The state of a `Rook`: the inherited `ChessPiece` plus
`castle_moves_left_`. -/
structure Rook extends ChessPiece where
  castle_moves_left_ : Int
deriving DecidableEq, Repr

/-- `Rook::Rook()`: default-constructs the base and sets
`castle_moves_left_` to 3. -/
def Rook.mkDefault : Rook :=
  { toChessPiece := ChessPiece.mkDefault, castle_moves_left_ := 3 }

/-- `Rook::Rook(color, row, col, movingUp, castleMoves)`: constructs the
base from the first four arguments and stores
`std::max(0, castleMoves)`. -/
def Rook.mkParam (color : List Char) (row col : Int) (movingUp : Bool)
    (castleMoves : Int) : Rook :=
  { toChessPiece := ChessPiece.mkParam color row col movingUp,
    castle_moves_left_ := max 0 castleMoves }

/-- `Rook::getCastleMovesLeft`. -/
def Rook.getCastleMovesLeft (r : Rook) : Int := r.castle_moves_left_

/-- `Rook::canCastle(piece)`: the early-return cascade of the C++ body,
in source order. A `const` member function: it reads both pieces and
mutates neither, which the pure function type captures. -/
def Rook.canCastle (r : Rook) (piece : ChessPiece) : Bool :=
  if r.castle_moves_left_ ≤ 0 then false
  else if r.getColor ≠ piece.getColor then false
  else if r.getRow = -1 ∨ r.getColumn = -1 ∨
       piece.getRow = -1 ∨ piece.getColumn = -1 then false
  else if r.getRow ≠ piece.getRow then false
  else if (r.getColumn - piece.getColumn).natAbs > 1 then false
  else true

/-- The state of a `Pawn`: the inherited `ChessPiece` plus
`double_jumpable_`. -/
structure Pawn extends ChessPiece where
  double_jumpable_ : Bool
deriving DecidableEq, Repr

/-- `Pawn::Pawn()`: default-constructs the base and sets
`double_jumpable_` to false. -/
def Pawn.mkDefault : Pawn :=
  { toChessPiece := ChessPiece.mkDefault, double_jumpable_ := false }

/-- `Pawn::Pawn(color, row, column, movingUp, doubleJumpable)`. -/
def Pawn.mkParam (color : List Char) (row column : Int) (movingUp : Bool)
    (doubleJumpable : Bool) : Pawn :=
  { toChessPiece := ChessPiece.mkParam color row column movingUp,
    double_jumpable_ := doubleJumpable }

/-- `Pawn::canDoubleJump`. -/
def Pawn.canDoubleJump (p : Pawn) : Bool := p.double_jumpable_

/-- `Pawn::toggleDoubleJump`: flips the flag. -/
def Pawn.toggleDoubleJump (p : Pawn) : Pawn :=
  { p with double_jumpable_ := !p.double_jumpable_ }

/-- `Pawn::canPromote`: `(isMovingUp() && getRow() == BOARD_LENGTH - 1)
|| (!isMovingUp() && getRow() == 0)`. -/
def Pawn.canPromote (p : Pawn) : Bool :=
  (p.toChessPiece.isMovingUp && p.toChessPiece.getRow == BOARD_LENGTH - 1)
    || (!p.toChessPiece.isMovingUp && p.toChessPiece.getRow == 0)

/-- Invariant I1 of the spec: a piece is never half-placed. -/
def I1 (p : ChessPiece) : Prop := (p.row_ = -1) ↔ (p.column_ = -1)

instance (p : ChessPiece) : Decidable (I1 p) := by
  unfold I1; infer_instance

lemma I1_mkParam (color : List Char) (row column : Int) (movingUp : Bool) :
    I1 (ChessPiece.mkParam color row column movingUp) := by
  unfold ChessPiece.mkParam I1
  split <;> split <;> simp only <;> omega

lemma I1_setRow_of (p : ChessPiece) (n : Int) (h : I1 p)
    (hs : p.row_ ≠ -1 ∨ ¬(0 ≤ n ∧ n < BOARD_LENGTH)) : I1 (p.setRow n) := by
  unfold I1 at *
  unfold ChessPiece.setRow BOARD_LENGTH at *
  split
  · next hin => simp only; omega
  · simp only

lemma I1_setColumn_of (p : ChessPiece) (n : Int) (h : I1 p)
    (hs : p.column_ ≠ -1 ∨ ¬(0 ≤ n ∧ n < BOARD_LENGTH)) : I1 (p.setColumn n) := by
  unfold I1 at *
  unfold ChessPiece.setColumn BOARD_LENGTH at *
  split
  · next hin => simp only; omega
  · simp only

/-- C1: REFUTED as stated. The claim asserts I1 after every sequence of
setter calls, but `setRow` with an in-range argument on an off-board
piece updates only the row, leaving the column at `-1`: the
default-constructed piece after `setRow(3)` has row 3 and column -1,
violating I1. -/
theorem c1_counterexample :
    ¬ I1 (ChessPiece.mkDefault.setRow 3) := by decide

/-- C1 (amended): I1 holds at construction and is preserved by
`setColor`, `setMovingUp` and `toggleDoubleJump` always, and by `setRow`
(resp. `setColumn`) whenever the piece's row (resp. column) is not `-1`
or the new coordinate is out of range; only an in-range `setRow` or
`setColumn` applied to an off-board piece escapes preservation. -/
theorem c1_amended :
    (∀ color row column movingUp,
        I1 (ChessPiece.mkParam color row column movingUp)) ∧
    I1 ChessPiece.mkDefault ∧
    (∀ p s, I1 p → I1 (p.setColor s).2) ∧
    (∀ p b, I1 p → I1 (p.setMovingUp b)) ∧
    (∀ pw : Pawn, I1 pw.toChessPiece → I1 pw.toggleDoubleJump.toChessPiece) ∧
    (∀ p n, I1 p → (p.row_ ≠ -1 ∨ ¬(0 ≤ n ∧ n < BOARD_LENGTH)) →
        I1 (p.setRow n)) ∧
    (∀ p n, I1 p → (p.column_ ≠ -1 ∨ ¬(0 ≤ n ∧ n < BOARD_LENGTH)) →
        I1 (p.setColumn n)) := by
  refine ⟨I1_mkParam, by decide, ?_, ?_, ?_, I1_setRow_of, I1_setColumn_of⟩
  · intro p s h
    unfold ChessPiece.setColor
    split
    · exact h
    · exact h
  · intro p b h
    exact h
  · intro pw h
    exact h

/-- C1 witness: preservation applied at a concrete on-board piece. -/
theorem c1_amended_witness :
    I1 ((ChessPiece.mkParam blackStr 2 4 true).setRow 5) :=
  c1_amended.2.2.2.2.2.1 (ChessPiece.mkParam blackStr 2 4 true) 5
    (by decide) (Or.inl (by decide))

/-- C2: `Rook::canCastle` returns true exactly when the castle budget is
positive, the colors agree, all four coordinates differ from `-1`, the
rows agree and the columns differ by at most 1; the embedding is a pure
function of the two states, mirroring the `const` C++ method that
mutates neither piece and leaves `castle_moves_left_` untouched. -/
theorem c2 (r : Rook) (p : ChessPiece) :
    r.canCastle p = true ↔
      0 < r.castle_moves_left_ ∧ r.color_ = p.color_ ∧
      r.row_ ≠ -1 ∧ r.column_ ≠ -1 ∧ p.row_ ≠ -1 ∧ p.column_ ≠ -1 ∧
      r.row_ = p.row_ ∧ |r.column_ - p.column_| ≤ 1 := by
  unfold Rook.canCastle
  unfold ChessPiece.getColor ChessPiece.getRow ChessPiece.getColumn
  repeat' split
  all_goals simp_all [abs_le]
  all_goals omega

/-- C3: `Pawn::canPromote` is true exactly when the pawn is moving up
and sits in row `BOARD_LENGTH - 1`, or is moving down and sits in row 0;
an off-board pawn (row `-1`) never promotes. -/
theorem c3 (p : Pawn) :
    (p.canPromote = true ↔
      (p.movingUp_ = true ∧ p.row_ = BOARD_LENGTH - 1) ∨
      (p.movingUp_ = false ∧ p.row_ = 0)) ∧
    (p.row_ = -1 → p.canPromote = false) := by
  unfold Pawn.canPromote ChessPiece.isMovingUp ChessPiece.getRow
  constructor
  · cases h : p.toChessPiece.movingUp_ <;>
      simp [h, BOARD_LENGTH]
  · intro h
    cases hm : p.toChessPiece.movingUp_ <;>
      simp [hm, h, BOARD_LENGTH]

/-- C3 witness: a concrete off-board pawn cannot promote. -/
theorem c3_witness :
    (Pawn.mkParam ['w'] (-1) 0 true false).canPromote = false :=
  (c3 (Pawn.mkParam ['w'] (-1) 0 true false)).2 (by decide)

/-- C4: `setRow` with an in-range argument updates only the row field;
any out-of-range argument sets both row and column to `-1`; `setColumn`
is symmetric. -/
theorem c4 (p : ChessPiece) (n : Int) :
    ((0 ≤ n ∧ n < BOARD_LENGTH) → p.setRow n = { p with row_ := n }) ∧
    (¬(0 ≤ n ∧ n < BOARD_LENGTH) →
      p.setRow n = { p with row_ := -1, column_ := -1 }) ∧
    ((0 ≤ n ∧ n < BOARD_LENGTH) → p.setColumn n = { p with column_ := n }) ∧
    (¬(0 ≤ n ∧ n < BOARD_LENGTH) →
      p.setColumn n = { p with row_ := -1, column_ := -1 }) := by
  unfold ChessPiece.setRow ChessPiece.setColumn
  exact ⟨fun h => if_pos h, fun h => if_neg h,
    fun h => if_pos h, fun h => if_neg h⟩

/-- C4 witness: an in-range and an out-of-range call on a concrete
piece. -/
theorem c4_witness :
    ChessPiece.mkDefault.setRow 3 =
      { ChessPiece.mkDefault with row_ := 3 } ∧
    ChessPiece.mkDefault.setColumn 8 =
      { ChessPiece.mkDefault with row_ := -1, column_ := -1 } :=
  ⟨(c4 ChessPiece.mkDefault 3).1 (by decide),
   (c4 ChessPiece.mkDefault 8).2.2.2 (by decide)⟩

/-- C5: `setColor` succeeds exactly on all-alphabetic input, storing the
uppercased string and changing nothing else; on any other input it
returns false and leaves the whole state unchanged. -/
theorem c5 (p : ChessPiece) (s : List Char) :
    ((∀ c ∈ s, isalpha c = true) →
      p.setColor s = (true, { p with color_ := s.map toupper })) ∧
    ((¬ ∀ c ∈ s, isalpha c = true) → p.setColor s = (false, p)) := by
  unfold ChessPiece.setColor isAlphabetic toUpperStr
  constructor
  · intro h
    rw [if_pos (by simpa [List.all_eq_true] using h)]
  · intro h
    rw [if_neg (by simpa [List.all_eq_true] using h)]

/-- C5 witness: an alphabetic and a non-alphabetic call on a concrete
piece. -/
theorem c5_witness :
    ChessPiece.mkDefault.setColor ['a', 'b', 'c'] =
      (true, { ChessPiece.mkDefault with color_ := ['A', 'B', 'C'] }) ∧
    ChessPiece.mkDefault.setColor ['a', '1', 'b'] =
      (false, ChessPiece.mkDefault) := by
  constructor
  · have h := (c5 ChessPiece.mkDefault ['a', 'b', 'c']).1 (by decide)
    exact h.trans (by decide)
  · exact (c5 ChessPiece.mkDefault ['a', '1', 'b']).2 (by decide)

/-- C6: the parameterized constructor stores both coordinates when both
are in `[0, BOARD_LENGTH)` and stores `-1` for both when either is out
of range; `movingUp` is stored unconditionally; the `Rook` and `Pawn`
parameterized constructors delegate to the same base construction. -/
theorem c6 (color : List Char) (row column : Int) (movingUp : Bool)
    (cm : Int) (dj : Bool) :
    ((0 ≤ row ∧ row < BOARD_LENGTH ∧ 0 ≤ column ∧ column < BOARD_LENGTH) →
      (ChessPiece.mkParam color row column movingUp).row_ = row ∧
      (ChessPiece.mkParam color row column movingUp).column_ = column) ∧
    (¬(0 ≤ row ∧ row < BOARD_LENGTH ∧ 0 ≤ column ∧ column < BOARD_LENGTH) →
      (ChessPiece.mkParam color row column movingUp).row_ = -1 ∧
      (ChessPiece.mkParam color row column movingUp).column_ = -1) ∧
    (ChessPiece.mkParam color row column movingUp).movingUp_ = movingUp ∧
    (Rook.mkParam color row column movingUp cm).toChessPiece =
      ChessPiece.mkParam color row column movingUp ∧
    (Pawn.mkParam color row column movingUp dj).toChessPiece =
      ChessPiece.mkParam color row column movingUp := by
  unfold ChessPiece.mkParam
  refine ⟨fun h => ?_, fun h => ?_, ?_, rfl, rfl⟩
  · rw [if_pos h]
    exact ⟨rfl, rfl⟩
  · rw [if_neg h]
    exact ⟨rfl, rfl⟩
  · split <;> split <;> rfl

/-- C6 witness: one fully in-range and one half-out-of-range concrete
construction. -/
theorem c6_witness :
    (ChessPiece.mkParam ['w'] 2 3 true).row_ = 2 ∧
    (ChessPiece.mkParam ['w'] 2 3 true).column_ = 3 ∧
    (ChessPiece.mkParam ['w'] 2 9 true).row_ = -1 ∧
    (ChessPiece.mkParam ['w'] 2 9 true).column_ = -1 := by
  have h1 := (c6 ['w'] 2 3 true 0 false).1 (by decide)
  have h2 := (c6 ['w'] 2 9 true 0 false).2.1 (by decide)
  exact ⟨h1.1, h1.2, h2.1, h2.2⟩

/-- C7: a Rook constructed with castle-moves argument `n` reports
`max 0 n` castle moves left (negative input clamps to 0); the default
Rook reports 3. -/
theorem c7 (color : List Char) (row col : Int) (movingUp : Bool)
    (n : Int) :
    (Rook.mkParam color row col movingUp n).getCastleMovesLeft = max 0 n ∧
    Rook.mkDefault.getCastleMovesLeft = 3 :=
  ⟨rfl, rfl⟩

/-- C8: an on-board rook with a positive castle budget can castle with
itself: the colors trivially agree, the rows agree and the column
distance is 0. -/
theorem c8 (r : Rook) (h1 : r.row_ ≠ -1) (h2 : r.column_ ≠ -1)
    (h3 : 0 < r.castle_moves_left_) :
    r.canCastle r.toChessPiece = true := by
  unfold Rook.canCastle ChessPiece.getColor ChessPiece.getRow
  unfold ChessPiece.getColumn
  rw [if_neg (by omega), if_neg (by simp), if_neg (by simp [h1, h2]),
    if_neg (by simp), if_neg (by simp)]

/-- C8 witness: a concrete on-board rook with budget 3. -/
theorem c8_witness :
    (Rook.mkParam ['w'] 3 4 true 3).canCastle
      (Rook.mkParam ['w'] 3 4 true 3).toChessPiece = true :=
  c8 (Rook.mkParam ['w'] 3 4 true 3) (by decide) (by decide) (by decide)

/-- C9: `display` produces the single on-board line, with `UP` or `DOWN`
chosen by `movingUp`, when neither coordinate is `-1`, and the
not-on-the-board line otherwise; the embedding is a pure function of the
state, mirroring that the C++ method writes one line and changes no
member. -/
theorem c9 (p : ChessPiece) :
    ((p.row_ ≠ -1 ∧ p.column_ ≠ -1) →
      (p.movingUp_ = true → p.display =
        String.mk p.color_ ++ " piece at (" ++ toString p.row_ ++ ","
          ++ toString p.column_ ++ ") is moving " ++ "UP") ∧
      (p.movingUp_ = false → p.display =
        String.mk p.color_ ++ " piece at (" ++ toString p.row_ ++ ","
          ++ toString p.column_ ++ ") is moving " ++ "DOWN")) ∧
    (¬(p.row_ ≠ -1 ∧ p.column_ ≠ -1) →
      p.display = String.mk p.color_ ++ " piece is not on the board") := by
  unfold ChessPiece.display
  constructor
  · intro h
    rw [if_pos h]
    constructor
    · intro hm
      rw [hm]
      simp
    · intro hm
      rw [hm]
      simp
  · intro h
    rw [if_neg h]

/-- C9 witness: the two example lines of the spec, evaluated on concrete
pieces. -/
theorem c9_witness :
    (ChessPiece.mkParam blackStr 2 4 true).display =
      "BLACK piece at (2,4) is moving UP" ∧
    (ChessPiece.mkParam ['W', 'H', 'I', 'T', 'E'] (-1) 0 false).display =
      "WHITE piece is not on the board" := by
  constructor
  · have h := ((c9 (ChessPiece.mkParam blackStr 2 4 true)).1
      (by decide)).1 (by decide)
    exact h.trans (by decide)
  · have h := (c9 (ChessPiece.mkParam ['W', 'H', 'I', 'T', 'E'] (-1) 0
      false)).2 (by decide)
    exact h.trans (by decide)

/-- C10: the empty string is vacuously all-alphabetic: the parameterized
constructor stores `""` (not the fallback `"BLACK"`), and `setColor`
with `""` returns true and stores the empty color. -/
theorem c10 (row column : Int) (movingUp : Bool) (p : ChessPiece) :
    (ChessPiece.mkParam [] row column movingUp).color_ = [] ∧
    (ChessPiece.mkParam [] row column movingUp).color_ ≠ blackStr ∧
    p.setColor [] = (true, { p with color_ := [] }) := by
  unfold ChessPiece.mkParam ChessPiece.setColor
  refine ⟨?_, ?_, rfl⟩
  · split
    · split <;> rfl
    · next hf => exact absurd rfl hf
  · split
    · split <;> simp [toUpperStr, blackStr]
    · next hf => exact absurd rfl hf
